import Mathlib

/-!
# Verification of the Teltrip subscriber-enrichment pipeline

Shallow embedding of the data layer in `lib/teltrip.js` (and its sibling
revisions): the cost-template scanner `pickCostFromTemplate`, the cached
template-cost lookup `getTemplateCost`, the bounded-concurrency mapper
`pMap`, the usage windowing `weekWindows` / `getUsageTotal`, and the main
pipeline `fetchAllData`.

Modelling conventions:
* JSON documents (third-party API payloads) are modelled by the inductive
  `JVal`.  JS `undefined` (an absent field) is `Option.none` at access
  sites; the JS value `null` is `JVal.jnull`.
* JS numbers are modelled by `Rat`.  Only finite numbers are representable
  in `JVal`; the result of the JS `Number(·)` coercion is `Option Rat`
  with `none` standing for a non-finite result (`NaN`).  The code under
  study guards every numeric result with `Number.isFinite`, so collapsing
  `NaN` and `±Infinity` into `none` is observationally faithful; numeric
  string literals in scientific or hex notation (which JS would parse)
  are outside the modelled input space and coerce to `none`.
* `Number(v)` for an array `v` is modelled as `none` (JS would stringify
  the array first; array-valued numeric leaves are outside the modelled
  input space).
* Network calls are oracles `· → Except Unit JVal`; `Except.error` is a
  thrown/rejected call.  Wall-clock dates are abstracted to integer day
  numbers (`Int`), with the local-vs-UTC distinction out of scope.
-/

namespace Teltrip

/-- JSON-like runtime values exchanged with the billing API. -/
inductive JVal where
  | jnull
  | jbool (b : Bool)
  | jnum (q : Rat)
  | jstr (s : String)
  | jarr (items : List JVal)
  | jobj (fields : List (String × JVal))

open JVal

/-- JS truthiness: `null`/`false`/`0`/`""` are falsy, objects and arrays
are truthy. -/
def jTruthy : JVal → Bool
  | jnull => false
  | jbool b => b
  | jnum q => decide (q ≠ 0)
  | jstr s => decide (s ≠ "")
  | jarr _ => true
  | jobj _ => true

/-- Truthiness of an optional value (JS `undefined` is falsy). -/
def oTruthy : Option JVal → Bool
  | none => false
  | some v => jTruthy v

/-- Property access `o?.k`: `none` models JS `undefined` (absent field or
non-object receiver). -/
def jGet (o : JVal) (k : String) : Option JVal :=
  match o with
  | jobj fields => lookupField fields
  | _ => none
where
  lookupField : List (String × JVal) → Option JVal
    | [] => none
    | (k', v) :: rest => if k' = k then some v else lookupField rest

/-- `o?.k` seen through `??`: nullish results (absent field or `null`)
are `none`, so `a ?? b` is `jGetNN .. <|> jGetNN ..`. -/
def jGetNN (o : JVal) (k : String) : Option JVal :=
  match jGet o k with
  | some jnull => none
  | r => r

/-- `o?.[0]` for array receivers (first element, `undefined` otherwise). -/
def jIndex0 : JVal → Option JVal
  | jarr (x :: _) => some x
  | _ => none

/-- First truthy value of a JS `a || b || ...` chain, if any. -/
def jsOr : List (Option JVal) → Option JVal
  | [] => none
  | c :: rest =>
    match c with
    | some v => if jTruthy v then some v else jsOr rest
    | none => jsOr rest

/-- `o?.k1?.k2` -/
def jGet2 (o : JVal) (k1 k2 : String) : Option JVal :=
  (jGet o k1).bind (jGet · k2)

/-- Fold of decimal digits into a natural number. -/
def digitsVal (cs : List Char) : Nat :=
  cs.foldl (fun a c => a * 10 + (c.toNat - 48)) 0

/-- Split a character list at every `'.'`. -/
def splitDot : List Char → List (List Char)
  | [] => [[]]
  | '.' :: rest => [] :: splitDot rest
  | c :: rest =>
    match splitDot rest with
    | h :: t => (c :: h) :: t
    | [] => [[c]]

/-- ASCII whitespace, as trimmed by the JS `Number(string)` coercion. -/
def isWS (c : Char) : Bool :=
  c = ' ' ∨ c = '\t' ∨ c = '\n' ∨ c = '\r'

/-- Drop leading and trailing whitespace. -/
def trimWS (cs : List Char) : List Char :=
  ((cs.dropWhile isWS).reverse.dropWhile isWS).reverse

/-- Lowercase a string character by character (ASCII suffices for the
scanned key names). -/
def lowerStr (s : String) : String :=
  String.mk (s.data.map Char.toLower)

/-- JS `Number(s)` for a plain decimal body (no sign): `digits`,
`digits.digits`, `.digits` or `digits.`; anything else is `NaN`. -/
def decCore (cs : List Char) : Option Rat :=
  match splitDot cs with
  | [a] =>
    if a.length > 0 && a.all Char.isDigit then
      some ((digitsVal a : Nat) : Rat)
    else none
  | [a, b] =>
    if (a.length + b.length > 0) && a.all Char.isDigit && b.all Char.isDigit then
      some (((digitsVal a : Nat) : Rat) + ((digitsVal b : Nat) : Rat) / (10 ^ b.length : Rat))
    else none
  | _ => none

/-- JS `Number(s)` for a string: trimmed empty string is `0`; otherwise an
optionally signed decimal literal.  (Scientific/hex notation and
`"Infinity"` are outside the modelled input space and yield `none`.) -/
def jsStringToNumber (s : String) : Option Rat :=
  match trimWS s.data with
  | [] => some 0
  | '+' :: rest => decCore rest
  | '-' :: rest => (decCore rest).map Neg.neg
  | cs => decCore cs

/-- JS `Number(v)` coercion; `none` is a non-finite result (`NaN`). -/
def jsToNumber : JVal → Option Rat
  | jnull => some 0
  | jbool b => some (if b then 1 else 0)
  | jnum q => some q
  | jstr s => jsStringToNumber s
  | jarr _ => none
  | jobj _ => none

/-- `v.replace(/[^0-9.]/g, "")`: keep only digits and dots. -/
def stripNonNumeric (s : String) : String :=
  String.mk (s.data.filter (fun c => c.isDigit || c = '.'))

/-- `String(v)` as far as the cost scanner's discriminator test needs it
(array elements join with `","`, JS object stringification). -/
def jsToStr : JVal → String
  | jnull => "null"
  | jbool b => if b then "true" else "false"
  | jnum q => toString q
  | jstr s => s
  | jobj _ => "[object Object]"
  | jarr items => String.intercalate "," (jsToStrItems items)
where
  jsToStrItems : List JVal → List String
    | [] => []
    | jnull :: rest => "" :: jsToStrItems rest
    | v :: rest => jsToStr v :: jsToStrItems rest

/-- Does `pat` occur as a contiguous run inside `l`? -/
def containsSubAux (pat : List Char) : List Char → Bool
  | [] => pat.isEmpty
  | c :: rest => pat.isPrefixOf (c :: rest) || containsSubAux pat rest

/-- Substring test (the regex tests in the scanner are all plain
alternations of literal substrings). -/
def containsSub (s pat : String) : Bool :=
  containsSubAux pat.data s.data

/-- `/(one[_-]?time|onetime|activation|setup|fee)/` on an already
lowercased subject. -/
def oneTimeRe (t : String) : Bool :=
  containsSub t "one_time" || containsSub t "one-time" || containsSub t "onetime" ||
    containsSub t "activation" || containsSub t "setup" || containsSub t "fee"

/-- `/(cost|price|amount|one[_-]?time|onetime|activation|setup|subscriber(cost)?|fee|value)/i`
(case-insensitive: test the lowercased key). -/
def costKeyRe (lk : String) : Bool :=
  containsSub lk "cost" || containsSub lk "price" || containsSub lk "amount" ||
    containsSub lk "one_time" || containsSub lk "one-time" || containsSub lk "onetime" ||
    containsSub lk "activation" || containsSub lk "setup" ||
    containsSub lk "subscriber" || containsSub lk "fee" || containsSub lk "value"

/-! ## Cost Resolver: `pickCostFromTemplate`

Embeds `pickCostFromTemplate` (lib/teltrip.js, "robust cost pick"
revision): a depth-bounded scan of the template document collecting
numeric cost candidates into a preferred ("one-time") bucket and a
general bucket, then the selection policy over the buckets. -/

/-- The scanner's `take(val, bucket)`: coerce a candidate value to a
number (finite number, numeric string after stripping non-numeric
characters, or a nested `{value|amount|cost|price}` holder). -/
def takeNum (v : JVal) : Option Rat :=
  match v with
  | jnum n => some n
  | jstr s => jsStringToNumber (stripNonNumeric s)
  | jobj _ =>
    match jGetNN v "value" <|> jGetNN v "amount" <|> jGetNN v "cost" <|> jGetNN v "price" with
    | some x => jsToNumber x
    | none => none
  | jarr _ =>
    -- arrays are `typeof "object"`; `arr.value` etc. are all undefined
    none
  | _ => none

/-- Contribution of one `take(val, bucket)` call: (one-time bucket,
general bucket). -/
def takeInto (isOne : Bool) (v : JVal) : List Rat × List Rat :=
  match takeNum v with
  | some n => if isOne then ([n], []) else ([], [n])
  | none => ([], [])

/-- Append bucket contributions in collection order. -/
def bcat (a b : List Rat × List Rat) : List Rat × List Rat :=
  (a.1 ++ b.1, a.2 ++ b.2)

/-- `item.type || item.kind || item.chargeType || item.category || ""`,
stringified and lowercased, as tested by the array-entry discriminator. -/
def discrOf (it : JVal) : String :=
  lowerStr (jsToStr ((jsOr [jGet it "type", jGet it "kind", jGet it "chargeType", jGet it "category"]).getD (jstr "")))

/-- The per-array-item candidate extraction (before recursing into the
item): prefer entries whose discriminator marks one-time semantics. -/
def itemTake (it : JVal) : List Rat × List Rat :=
  match it with
  | jobj _ | jarr _ =>
    let isOne := oneTimeRe (discrOf it)
    let fromPrice :=
      match jGet it "price" with
      | some p@(jobj _) => takeInto isOne p
      | some p@(jarr _) => takeInto isOne p
      | _ => ([], [])
    let chain := jGetNN it "oneTime" <|> jGetNN it "amount" <|> jGetNN it "cost" <|> jGetNN it "price" <|> jGetNN it "value"
    bcat fromPrice (match chain with | some v => takeInto isOne v | none => ([], []))
  | _ => ([], [])

/-- Contribution of one object field `(k, v)` at remaining depth budget
`fuel` (see `walkV`): price-holder keys are taken whole, exact
`activationFee`/`setupFee` keys are preferred, cost-pattern keys are
taken (preferred when the key itself has one-time semantics), all other
object-valued fields are walked. -/
def fieldContrib (walkNext : JVal → List Rat × List Rat) (k : String) (v : JVal) :
    List Rat × List Rat :=
  let lk := lowerStr k
  if lk = "price" ∨ lk = "prices" ∨ lk = "pricing" ∨ lk = "pricelist" ∨ lk = "charges" then
    takeInto false v
  else if lk = "activationfee" ∨ lk = "setupfee" then
    takeInto true v
  else if costKeyRe lk then
    takeInto (oneTimeRe lk) v
  else
    match v with
    | jobj _ | jarr _ => walkNext v
    | _ => ([], [])

/-- The scanner's `walk(o, depth)`, with the source's depth counter
(`return` when `depth > 6`) rephrased as a remaining budget
`fuel = 7 - depth`, so the recursion is structural: a node at depth `d`
is processed iff `d ≤ 6` iff its budget is positive.  On falsy or
non-object values nothing is collected (JS `Object.entries` of a
primitive yields no cost-keyed fields). -/
def walkV : Nat → JVal → List Rat × List Rat
  | 0, _ => ([], [])
  | fuel + 1, jarr items =>
    items.foldr (fun it acc => bcat (bcat (itemTake it) (walkV fuel it)) acc) ([], [])
  | fuel + 1, jobj fields =>
    fields.foldr (fun kv acc => bcat (fieldContrib (walkV fuel) kv.1 kv.2) acc) ([], [])
  | _ + 1, _ => ([], [])

/-- Ascending insertion sort, modelling `.sort((a,b) => a-b)`. -/
def sortAsc : List Rat → List Rat
  | [] => []
  | x :: rest => insertAsc x (sortAsc rest)
where
  insertAsc (x : Rat) : List Rat → List Rat
    | [] => [x]
    | y :: ys => if x ≤ y then x :: y :: ys else y :: insertAsc x ys

/-- `pickCostFromTemplate(tpl)`: scan, then select the smallest positive
preferred candidate, else the smallest positive candidate, else zero if
any candidate is zero, else null. -/
def pickCostFromTemplate (tpl : JVal) : Option Rat :=
  match tpl with
  | jobj _ | jarr _ =>
    let buckets := walkV 7 tpl
    match (sortAsc (buckets.1.filter (fun n => decide (0 < n)))).head? with
    | some m => some m
    | none =>
      match (sortAsc (buckets.2.filter (fun n => decide (0 < n)))).head? with
      | some m => some m
      | none =>
        if (0 : Rat) ∈ buckets.1 then some 0
        else if (0 : Rat) ∈ buckets.2 then some 0
        else none
  | _ => none

/-! ## Claim C1: selection policy of the cost scan

A second definition written from the spec's words (§4.4 step 4 and §9's
`CostCandidate`), to be compared with the source-derived scanner. -/

/-- Spec §9: a cost candidate with its one-time preference tag. -/
structure CostCandidate where
  value : Rat
  isOneTimePreferred : Bool

/-- The candidates the scan collects for a template, tagged. -/
def costCandidates (tpl : JVal) : List CostCandidate :=
  match tpl with
  | jobj _ | jarr _ =>
    (walkV 7 tpl).1.map (fun v => ⟨v, true⟩) ++ (walkV 7 tpl).2.map (fun v => ⟨v, false⟩)
  | _ => []

/-- Smallest strictly positive element of a list, if any. -/
def smallestPos (l : List Rat) : Option Rat :=
  (l.filter (fun n => decide (0 < n))).min?

/-- Modelled from the spec's words (§4.4 step 4): smallest positive value
among preferred ("one-time") candidates; else smallest positive value
among all candidates; else zero if any candidate equals zero; else null. -/
def specCostSelection (cs : List CostCandidate) : Option Rat :=
  match smallestPos ((cs.filter (·.isOneTimePreferred)).map (·.value)) with
  | some m => some m
  | none =>
    match smallestPos (cs.map (·.value)) with
    | some m => some m
    | none => if (0 : Rat) ∈ cs.map (·.value) then some 0 else none

/-- The template of the claim's concrete test: its only cost-bearing data
is `[{type:"ONE_TIME", price:{value:3}}, {type:"BUNDLE", price:{value:50}}]`. -/
def exampleTemplate : JVal :=
  jobj [("items", jarr [
    jobj [("type", jstr "ONE_TIME"), ("price", jobj [("value", jnum 3)])],
    jobj [("type", jstr "BUNDLE"), ("price", jobj [("value", jnum 50)])]])]

theorem insertAsc_head? (x : Rat) (l : List Rat) :
    (sortAsc.insertAsc x l).head? = some (l.head?.elim x (min x)) := by
  cases l with
  | nil => simp [sortAsc.insertAsc]
  | cons y ys =>
    by_cases h : x ≤ y
    · simp [sortAsc.insertAsc, h, min_eq_left h]
    · simp [sortAsc.insertAsc, h, min_eq_right (le_of_not_le h)]

theorem sortAsc_head? (l : List Rat) : (sortAsc l).head? = l.min? := by
  induction l with
  | nil => simp [sortAsc]
  | cons x rest ih =>
    rw [sortAsc, insertAsc_head?, ih, List.min?_cons]

theorem costCandidates_pref (one gen : List Rat) :
    (((one.map (fun v => (⟨v, true⟩ : CostCandidate))
        ++ gen.map (fun v => (⟨v, false⟩ : CostCandidate))).filter
          (·.isOneTimePreferred)).map (·.value)) = one := by
  simp [List.filter_append, List.filter_map, Function.comp_def, List.map_map]

theorem costCandidates_all (one gen : List Rat) :
    ((one.map (fun v => (⟨v, true⟩ : CostCandidate))
        ++ gen.map (fun v => (⟨v, false⟩ : CostCandidate))).map (·.value)) = one ++ gen := by
  simp [List.map_append, List.map_map, Function.comp_def]

theorem pickCost_eq_specSelection (tpl : JVal) :
    pickCostFromTemplate tpl = specCostSelection (costCandidates tpl) := by
  cases tpl with
  | jobj fs =>
    show pickCostFromTemplate (jobj fs) = _
    rw [pickCostFromTemplate, costCandidates, specCostSelection,
      costCandidates_pref, costCandidates_all, smallestPos, smallestPos,
      sortAsc_head?, sortAsc_head?]
    cases hone : ((walkV 7 (jobj fs)).1.filter (fun n => decide (0 < n))).min? with
    | some m => simp
    | none =>
      have h1 : (walkV 7 (jobj fs)).1.filter (fun n => decide (0 < n)) = [] :=
        List.min?_eq_none_iff.mp hone
      rw [List.filter_append, h1]
      simp only [List.nil_append]
      cases hgen : ((walkV 7 (jobj fs)).2.filter (fun n => decide (0 < n))).min? with
      | some m => simp
      | none =>
        simp only [List.mem_append]
        by_cases hz1 : (0 : Rat) ∈ (walkV 7 (jobj fs)).1 <;>
          by_cases hz2 : (0 : Rat) ∈ (walkV 7 (jobj fs)).2 <;>
            simp [hz1, hz2]
  | jarr xs =>
    show pickCostFromTemplate (jarr xs) = _
    rw [pickCostFromTemplate, costCandidates, specCostSelection,
      costCandidates_pref, costCandidates_all, smallestPos, smallestPos,
      sortAsc_head?, sortAsc_head?]
    cases hone : ((walkV 7 (jarr xs)).1.filter (fun n => decide (0 < n))).min? with
    | some m => simp
    | none =>
      have h1 : (walkV 7 (jarr xs)).1.filter (fun n => decide (0 < n)) = [] :=
        List.min?_eq_none_iff.mp hone
      rw [List.filter_append, h1]
      simp only [List.nil_append]
      cases hgen : ((walkV 7 (jarr xs)).2.filter (fun n => decide (0 < n))).min? with
      | some m => simp
      | none =>
        simp only [List.mem_append]
        by_cases hz1 : (0 : Rat) ∈ (walkV 7 (jarr xs)).1 <;>
          by_cases hz2 : (0 : Rat) ∈ (walkV 7 (jarr xs)).2 <;>
            simp [hz1, hz2]
  | jnull => rfl
  | jbool b => rfl
  | jnum q => rfl
  | jstr s => rfl

/-- Claim C1: for every template object the cost scan selects, in order,
the smallest positive value among candidates tagged one-time/activation/
setup, else the smallest positive value among all candidates, else zero
if any candidate equals zero, else null; and for the template whose only
cost-bearing data is `[{type:"ONE_TIME", price:{value:3}},
{type:"BUNDLE", price:{value:50}}]` the resolved cost is 3, not 50. -/
theorem C1_cost_selection_policy :
    (∀ tpl : JVal, pickCostFromTemplate tpl = specCostSelection (costCandidates tpl)) ∧
      pickCostFromTemplate exampleTemplate = some 3 :=
  ⟨pickCost_eq_specSelection, by decide⟩

/-! ## Cost Resolver: `getTemplateCost`

Embeds `getTemplateCost(templateId)` (lib/teltrip.js): coerce the id,
bail on `0`/`NaN`, consult the module-level `tplCache`, otherwise try the
two lookup verbs (each `callOCS` modelled as an oracle whose `error` is a
thrown request, swallowed by the source's empty `catch`), extract the
template from either response shape, pick a cost, coerce, cache and
return.  The result triple also reports how many network requests the
call issued. -/

/-- The module-level `tplCache`, keyed by the coerced numeric id. -/
def TplCache := List (Rat × Option Rat)

/-- `tplCache.get(id)` (outer `none`: key absent). -/
def cacheGet (c : TplCache) (id : Rat) : Option (Option Rat) :=
  match c with
  | [] => none
  | (k, v) :: rest => if k = id then some v else cacheGet rest id

/-- `tplCache.set(id, val)`. -/
def cacheSet (c : TplCache) (id : Rat) (v : Option Rat) : TplCache :=
  (id, v) :: c

/-- The two template-lookup verbs of the billing API, as response
oracles; `Except.error` is a rejected request. -/
structure TplNet where
  verbA : Rat → Except Unit JVal
  verbB : Rat → Except Unit JVal

/-- `r1?.listPrepaidPackageTemplateRsp?.prepaidPackageTemplate?.[0] || r1?...?.prepaidPackageTemplate || null` -/
def extractTplA (r : JVal) : Option JVal :=
  jsOr [(jGet2 r "listPrepaidPackageTemplateRsp" "prepaidPackageTemplate").bind jIndex0,
    jGet2 r "listPrepaidPackageTemplateRsp" "prepaidPackageTemplate"]

/-- `r2?.prepaidPackageTemplate || r2?.template || r2?.prepaidPackageTemplates?.[0] || null` -/
def extractTplB (r : JVal) : Option JVal :=
  jsOr [jGet r "prepaidPackageTemplate", jGet r "template",
    (jGet r "prepaidPackageTemplates").bind jIndex0]

/-- The `??`-fallback chain after the scan:
`pickCostFromTemplate(tpl) ?? tpl.cost ?? tpl.price ?? tpl.amount ??
tpl.oneTimePrice ?? tpl.subscriberCost ?? tpl?.price?.value`. -/
def tplCostChain (tpl : JVal) : Option JVal :=
  match pickCostFromTemplate tpl with
  | some n => some (jnum n)
  | none =>
    jGetNN tpl "cost" <|> jGetNN tpl "price" <|> jGetNN tpl "amount" <|>
      jGetNN tpl "oneTimePrice" <|> jGetNN tpl "subscriberCost" <|>
      (match (jGet tpl "price").bind (jGet · "value") with
       | some jnull => none
       | r => r)

/-- `getTemplateCost(templateId)`: returns the value, the updated cache
and the number of network requests issued.  Note that when `cost` ends
up `null` (both lookups failed, or no cost-like data), JS computes
`Number(null) = 0`, which is finite, so the cached value is `0`; the
cached value is `none` exactly when the chain produced a value that
coerces to `NaN`. -/
def getTemplateCost (net : TplNet) (cache : TplCache) (templateId : JVal) :
    Option Rat × TplCache × Nat :=
  match jsToNumber templateId with
  | none => (none, cache, 0)
  | some id =>
    if id = 0 then (none, cache, 0)
    else
      match cacheGet cache id with
      | some v => (v, cache, 0)
      | none =>
        let a : Option JVal × Nat :=
          match net.verbA id with
          | .error _ => (none, 1)
          | .ok r1 => (extractTplA r1, 1)
        let b : Option JVal × Nat :=
          match a.1 with
          | some t => (some t, a.2)
          | none =>
            match net.verbB id with
            | .error _ => (none, a.2 + 1)
            | .ok r2 => (extractTplB r2, a.2 + 1)
        let cost : Option JVal :=
          match b.1 with
          | none => none
          | some tpl => tplCostChain tpl
        let val : Option Rat :=
          match cost with
          | none => some 0          -- JS: Number(null) = 0, which is finite
          | some cv => jsToNumber cv
        (val, cacheSet cache id val, b.2)

/-- Claim C2: within one run, a second `getTemplateCost` call for the
same template id returns exactly the result of the first call (a null
result included), leaves the cache unchanged, and issues no network
request: every first-call outcome is cached under the id. -/
theorem C2_template_cost_cached (net : TplNet) (cache : TplCache) (tid : JVal) :
    getTemplateCost net ((getTemplateCost net cache tid).2.1) tid =
      ((getTemplateCost net cache tid).1, (getTemplateCost net cache tid).2.1, 0) := by
  rw [getTemplateCost]
  cases hn : jsToNumber tid with
  | none => simp [getTemplateCost, hn]
  | some id =>
    by_cases hz : id = 0
    · simp [getTemplateCost, hn, hz]
    · rw [getTemplateCost, hn]
      simp only [if_neg hz]
      cases hc : cacheGet cache id with
      | some v => simp [hc]
      | none =>
        simp only [hc]
        simp [cacheGet, cacheSet]

/-- Witness for C2 at a concrete id whose first lookup caches an explicit
null (the template's only cost-like datum coerces to `NaN`): the second
call returns the cached null with zero network requests. -/
theorem C2_template_cost_cached_witness :
    (let net : TplNet :=
      ⟨fun _ => .ok (jobj [("listPrepaidPackageTemplateRsp",
          jobj [("prepaidPackageTemplate", jobj [("cost", jobj [("x", jnum 1)])])])]),
        fun _ => .error ()⟩
     getTemplateCost net ((getTemplateCost net [] (jnum 7)).2.1) (jnum 7) =
        ((getTemplateCost net [] (jnum 7)).1, (getTemplateCost net [] (jnum 7)).2.1, 0) ∧
      (getTemplateCost net [] (jnum 7)).1 = none ∧
      (getTemplateCost net [] (jnum 7)).2.2 = 1) :=
  ⟨C2_template_cost_cached _ [] (jnum 7), by decide, by decide⟩

/-- Claim C10: a template id whose numeric coercion is `0` or `NaN`
(null, 0, a non-numeric string, ...) makes `getTemplateCost` return null
immediately: no network request and an unchanged cache. -/
theorem C10_invalid_template_id (net : TplNet) (cache : TplCache) (tid : JVal)
    (h : jsToNumber tid = none ∨ jsToNumber tid = some 0) :
    getTemplateCost net cache tid = (none, cache, 0) := by
  rcases h with h | h <;> simp [getTemplateCost, h]

/-- Witness for C10: `Number(null) = 0` and `Number("abc") = NaN`; both
return null with no network call against an always-failing network. -/
theorem C10_invalid_template_id_witness :
    (jsToNumber jnull = some 0 ∨ jsToNumber jnull = none) ∧
      getTemplateCost ⟨fun _ => .error (), fun _ => .error ()⟩ [] jnull = (none, [], 0) ∧
      getTemplateCost ⟨fun _ => .error (), fun _ => .error ()⟩ [] (jstr "abc") = (none, [], 0) :=
  ⟨Or.inl (by decide),
    C10_invalid_template_id _ [] jnull (Or.inr (by decide)),
    C10_invalid_template_id _ [] (jstr "abc") (Or.inl (by decide))⟩

/-! ## Concurrency-bounded mapper: `pMap`

The source runs `min(concurrency, list.length)` async workers over a
shared index cursor:

    while (i < list.length) { const idx = i++; out[idx] = await fn(list[idx], idx); }

JS is single-threaded between `await`s, so `const idx = i++` is one
atomic step and the only suspension point is the `await`.  We model the
pool as a transition system driven by an arbitrary scheduler: a step
picks a worker; an idle worker either claims the next index (if any) or
finishes; a working worker completes its item — on a rejection the
surrounding `Promise.all` rejects (`failed` is set and the machine's
result is that error; writes of still-running workers are no longer
observable, so the machine freezes). -/

/-- Status of one pool worker. -/
inductive WStatus where
  | idle
  | working (idx : Nat)
  | done

/-- State of the worker pool: shared cursor `i`, output array `out`
(`none` is an unassigned slot), the workers, and the first rejection if
any. -/
structure PoolState (ε β : Type) where
  cursor : Nat
  out : List (Option β)
  workers : List WStatus
  failed : Option ε

/-- One scheduler step: run worker `w` until its next suspension point. -/
def pMapStep {α β ε : Type} (items : List α) (op : α → Nat → Except ε β)
    (s : PoolState ε β) (w : Nat) : PoolState ε β :=
  if s.failed.isSome then s
  else
    match s.workers[w]? with
    | none => s
    | some .idle =>
      if s.cursor < items.length then
        { s with cursor := s.cursor + 1, workers := s.workers.set w (.working s.cursor) }
      else
        { s with workers := s.workers.set w .done }
    | some (.working idx) =>
      match items[idx]? with
      | none => s
      | some a =>
        match op a idx with
        | .ok b => { s with out := s.out.set idx (some b), workers := s.workers.set w .idle }
        | .error e => { s with failed := some e }
    | some .done => s

/-- The pool before any worker runs: `out = new Array(list.length)`,
`min(concurrency, list.length)` idle workers. -/
def pMapInit {α : Type} (ε β : Type) (items : List α) (concurrency : Nat) : PoolState ε β :=
  ⟨0, List.replicate items.length none, List.replicate (min concurrency items.length) .idle, none⟩

/-- Run the pool under a given schedule (list of worker choices). -/
def pMapRun {α β ε : Type} (items : List α) (op : α → Nat → Except ε β)
    (concurrency : Nat) (sched : List Nat) : PoolState ε β :=
  sched.foldl (pMapStep items op) (pMapInit ε β items concurrency)

/-- `Promise.all` has settled successfully iff every worker finished. -/
def allDone {ε β : Type} (s : PoolState ε β) : Bool :=
  s.workers.all (fun st => match st with | .done => true | _ => false)

/-- What `pMap` returns (or throws): the first rejection, else `out`. -/
def pMapResult {ε β : Type} (s : PoolState ε β) : Except ε (List (Option β)) :=
  match s.failed with
  | some e => .error e
  | none => .ok s.out

/-- Pool invariant: output length is fixed; the cursor never exceeds the
input length; working indices are below the cursor and pairwise distinct;
claimed-and-completed slots hold the operation's value; unclaimed slots
are unassigned; a worker is done only once the cursor is exhausted. -/
def PoolInv {α β ε : Type} (items : List α) (op : α → Nat → Except ε β)
    (k : Nat) (s : PoolState ε β) : Prop :=
  s.out.length = items.length ∧
  s.workers.length = min k items.length ∧
  s.cursor ≤ items.length ∧
  (∀ (w idx : Nat), s.workers[w]? = some (WStatus.working idx) → idx < s.cursor) ∧
  (∀ (w w' idx : Nat), s.workers[w]? = some (WStatus.working idx) →
    s.workers[w']? = some (WStatus.working idx) → w = w') ∧
  (∀ j : Nat, j < s.cursor → (∀ w : Nat, s.workers[w]? ≠ some (WStatus.working j)) →
    ∀ a, items[j]? = some a → ∀ b, op a j = .ok b → s.out[j]? = some (some b)) ∧
  (∀ j : Nat, s.cursor ≤ j → j < items.length → s.out[j]? = some none) ∧
  (∀ w : Nat, s.workers[w]? = some WStatus.done → items.length ≤ s.cursor)

theorem poolInv_init {α β ε : Type} (items : List α) (op : α → Nat → Except ε β) (k : Nat) :
    PoolInv items op k (pMapInit ε β items k) := by
  unfold PoolInv
  refine ⟨by simp [pMapInit], by simp [pMapInit], by simp [pMapInit], ?_, ?_, ?_, ?_, ?_⟩
  · intro w idx h
    simp [pMapInit, List.getElem?_replicate] at h
  · intro w w' idx h h'
    simp [pMapInit, List.getElem?_replicate] at h
  · intro j hj
    simp [pMapInit] at hj
  · intro j hj hlt
    simp [pMapInit, List.getElem?_replicate, hlt]
  · intro w h
    simp [pMapInit, List.getElem?_replicate] at h

theorem pMapStep_eq_frozen {α β ε : Type} (items : List α) (op : α → Nat → Except ε β)
    (s : PoolState ε β) (w : Nat) (hf : s.failed.isSome = true) :
    pMapStep items op s w = s := by
  simp [pMapStep, hf]

theorem pMapStep_eq_nowork {α β ε : Type} (items : List α) (op : α → Nat → Except ε β)
    (s : PoolState ε β) (w : Nat) (hf : s.failed = none) (hw : s.workers[w]? = none) :
    pMapStep items op s w = s := by
  simp [pMapStep, hf, hw]

theorem pMapStep_eq_claim {α β ε : Type} (items : List α) (op : α → Nat → Except ε β)
    (s : PoolState ε β) (w : Nat) (hf : s.failed = none)
    (hw : s.workers[w]? = some WStatus.idle) (hc : s.cursor < items.length) :
    pMapStep items op s w =
      { s with cursor := s.cursor + 1, workers := s.workers.set w (.working s.cursor) } := by
  simp [pMapStep, hf, hw, hc]

theorem pMapStep_eq_retire {α β ε : Type} (items : List α) (op : α → Nat → Except ε β)
    (s : PoolState ε β) (w : Nat) (hf : s.failed = none)
    (hw : s.workers[w]? = some WStatus.idle) (hc : ¬ s.cursor < items.length) :
    pMapStep items op s w = { s with workers := s.workers.set w .done } := by
  simp [pMapStep, hf, hw, hc]

theorem pMapStep_eq_oob {α β ε : Type} (items : List α) (op : α → Nat → Except ε β)
    (s : PoolState ε β) (w : Nat) (idx : Nat) (hf : s.failed = none)
    (hw : s.workers[w]? = some (WStatus.working idx)) (ha : items[idx]? = none) :
    pMapStep items op s w = s := by
  simp [pMapStep, hf, hw, ha]

theorem pMapStep_eq_complete {α β ε : Type} (items : List α) (op : α → Nat → Except ε β)
    (s : PoolState ε β) (w : Nat) (idx : Nat) (a : α) (b : β) (hf : s.failed = none)
    (hw : s.workers[w]? = some (WStatus.working idx)) (ha : items[idx]? = some a)
    (hb : op a idx = .ok b) :
    pMapStep items op s w =
      { s with out := s.out.set idx (some b), workers := s.workers.set w .idle } := by
  simp [pMapStep, hf, hw, ha, hb]

theorem pMapStep_eq_reject {α β ε : Type} (items : List α) (op : α → Nat → Except ε β)
    (s : PoolState ε β) (w : Nat) (idx : Nat) (a : α) (e : ε) (hf : s.failed = none)
    (hw : s.workers[w]? = some (WStatus.working idx)) (ha : items[idx]? = some a)
    (hb : op a idx = .error e) :
    pMapStep items op s w = { s with failed := some e } := by
  simp [pMapStep, hf, hw, ha, hb]

theorem pMapStep_eq_done {α β ε : Type} (items : List α) (op : α → Nat → Except ε β)
    (s : PoolState ε β) (w : Nat) (hf : s.failed = none)
    (hw : s.workers[w]? = some WStatus.done) :
    pMapStep items op s w = s := by
  simp [pMapStep, hf, hw]

theorem poolInv_step {α β ε : Type} (items : List α) (op : α → Nat → Except ε β)
    (k : Nat) (s : PoolState ε β) (w : Nat) (hInv : PoolInv items op k s) :
    PoolInv items op k (pMapStep items op s w) := by
  obtain ⟨hout, hwk, hcur, hwlt, hdis, hcomp, hunc, hdone⟩ := hInv
  cases hfail : s.failed with
  | some e =>
    rw [pMapStep_eq_frozen items op s w (by simp [hfail])]
    exact ⟨hout, hwk, hcur, hwlt, hdis, hcomp, hunc, hdone⟩
  | none =>
  cases hw : s.workers[w]? with
  | none =>
    rw [pMapStep_eq_nowork items op s w hfail hw]
    exact ⟨hout, hwk, hcur, hwlt, hdis, hcomp, hunc, hdone⟩
  | some st =>
  have hwltlen : w < s.workers.length := by
    rcases List.getElem?_eq_some.mp hw with ⟨h, _⟩; exact h
  cases st with
  | done =>
    rw [pMapStep_eq_done items op s w hfail hw]
    exact ⟨hout, hwk, hcur, hwlt, hdis, hcomp, hunc, hdone⟩
  | idle =>
    by_cases hc : s.cursor < items.length
    · -- the idle worker claims index `cursor`
      rw [pMapStep_eq_claim items op s w hfail hw hc]
      refine ⟨hout, by simpa using hwk, by dsimp only; omega, ?_, ?_, ?_, ?_, ?_⟩
      · intro w' idx h
        dsimp only at h ⊢
        rw [List.getElem?_set] at h
        by_cases he : w = w'
        · subst he
          rw [if_pos rfl, if_pos hwltlen] at h
          have : idx = s.cursor := by cases h; rfl
          omega
        · rw [if_neg he] at h
          have := hwlt w' idx h
          omega
      · intro w1 w2 idx h1 h2
        dsimp only at h1 h2
        rw [List.getElem?_set] at h1 h2
        by_cases he1 : w = w1 <;> by_cases he2 : w = w2
        · omega
        · subst he1
          rw [if_pos rfl, if_pos hwltlen] at h1
          rw [if_neg he2] at h2
          have hi : idx = s.cursor := by cases h1; rfl
          have := hwlt w2 idx h2
          omega
        · subst he2
          rw [if_pos rfl, if_pos hwltlen] at h2
          rw [if_neg he1] at h1
          have hi : idx = s.cursor := by cases h2; rfl
          have := hwlt w1 idx h1
          omega
        · rw [if_neg he1] at h1
          rw [if_neg he2] at h2
          exact hdis w1 w2 idx h1 h2
      · intro j hj hnw a ha b hb
        dsimp only at hj hnw ⊢
        by_cases hje : j = s.cursor
        · exfalso
          apply hnw w
          rw [List.getElem?_set, if_pos rfl, if_pos hwltlen, hje]
        · refine hcomp j (by omega) ?_ a ha b hb
          intro w' hct
          by_cases he : w = w'
          · rw [← he, hw] at hct
            cases hct
          · apply hnw w'
            rw [List.getElem?_set, if_neg he]
            exact hct
      · intro j hj hjl
        dsimp only at hj ⊢
        exact hunc j (by omega) hjl
      · intro w' h
        dsimp only at h ⊢
        rw [List.getElem?_set] at h
        by_cases he : w = w'
        · subst he
          rw [if_pos rfl, if_pos hwltlen] at h
          cases h
        · rw [if_neg he] at h
          have := hdone w' h
          omega
    · -- the cursor is exhausted: the idle worker finishes
      rw [pMapStep_eq_retire items op s w hfail hw hc]
      refine ⟨hout, by simpa using hwk, hcur, ?_, ?_, ?_, hunc, ?_⟩
      · intro w' idx h
        dsimp only at h ⊢
        rw [List.getElem?_set] at h
        by_cases he : w = w'
        · subst he
          rw [if_pos rfl, if_pos hwltlen] at h
          cases h
        · rw [if_neg he] at h
          exact hwlt w' idx h
      · intro w1 w2 idx h1 h2
        dsimp only at h1 h2
        rw [List.getElem?_set] at h1 h2
        by_cases he1 : w = w1 <;> by_cases he2 : w = w2
        · omega
        · subst he1
          rw [if_pos rfl, if_pos hwltlen] at h1
          cases h1
        · subst he2
          rw [if_pos rfl, if_pos hwltlen] at h2
          cases h2
        · rw [if_neg he1] at h1
          rw [if_neg he2] at h2
          exact hdis w1 w2 idx h1 h2
      · intro j hj hnw a ha b hb
        dsimp only at hj hnw ⊢
        refine hcomp j hj ?_ a ha b hb
        intro w' hct
        by_cases he : w = w'
        · rw [← he, hw] at hct
          cases hct
        · apply hnw w'
          rw [List.getElem?_set, if_neg he]
          exact hct
      · intro w' h
        dsimp only at h ⊢
        omega
  | working idx =>
    have hidx : idx < s.cursor := hwlt w idx hw
    cases ha : items[idx]? with
    | none =>
      rw [pMapStep_eq_oob items op s w idx hfail hw ha]
      exact ⟨hout, hwk, hcur, hwlt, hdis, hcomp, hunc, hdone⟩
    | some a =>
    cases hb : op a idx with
    | error e =>
      rw [pMapStep_eq_reject items op s w idx a e hfail hw ha hb]
      exact ⟨hout, hwk, hcur, hwlt, hdis, hcomp, hunc, hdone⟩
    | ok b =>
      rw [pMapStep_eq_complete items op s w idx a b hfail hw ha hb]
      refine ⟨by simpa using hout, by simpa using hwk, hcur, ?_, ?_, ?_, ?_, ?_⟩
      · intro w' idx' h
        dsimp only at h ⊢
        rw [List.getElem?_set] at h
        by_cases he : w = w'
        · subst he
          rw [if_pos rfl, if_pos hwltlen] at h
          cases h
        · rw [if_neg he] at h
          exact hwlt w' idx' h
      · intro w1 w2 idx' h1 h2
        dsimp only at h1 h2
        rw [List.getElem?_set] at h1 h2
        by_cases he1 : w = w1 <;> by_cases he2 : w = w2
        · omega
        · subst he1
          rw [if_pos rfl, if_pos hwltlen] at h1
          cases h1
        · subst he2
          rw [if_pos rfl, if_pos hwltlen] at h2
          cases h2
        · rw [if_neg he1] at h1
          rw [if_neg he2] at h2
          exact hdis w1 w2 idx' h1 h2
      · intro j hj hnw a' ha' b' hb'
        dsimp only at hj hnw ⊢
        by_cases hje : j = idx
        · subst hje
          have hab : a' = a := by rw [ha] at ha'; cases ha'; rfl
          subst hab
          have hbb : b' = b := by rw [hb] at hb'; cases hb'; rfl
          subst hbb
          rw [List.getElem?_set, if_pos rfl, if_pos (by omega)]
        · rw [List.getElem?_set, if_neg (fun hh => hje hh.symm)]
          refine hcomp j hj ?_ a' ha' b' hb'
          intro w' hct
          by_cases he : w = w'
          · rw [← he, hw] at hct
            have : idx = j := by cases hct; rfl
            exact hje this.symm
          · apply hnw w'
            rw [List.getElem?_set, if_neg he]
            exact hct
      · intro j hj hjl
        dsimp only at hj ⊢
        rw [List.getElem?_set, if_neg (by omega)]
        exact hunc j hj hjl
      · intro w' h
        dsimp only at h ⊢
        rw [List.getElem?_set] at h
        by_cases he : w = w'
        · subst he
          rw [if_pos rfl, if_pos hwltlen] at h
          cases h
        · rw [if_neg he] at h
          exact hdone w' h

theorem poolInv_run {α β ε : Type} (items : List α) (op : α → Nat → Except ε β)
    (k : Nat) (sched : List Nat) :
    PoolInv items op k (pMapRun items op k sched) := by
  rw [pMapRun]
  suffices h : ∀ s : PoolState ε β, PoolInv items op k s →
      PoolInv items op k (sched.foldl (pMapStep items op) s) from
    h _ (poolInv_init items op k)
  induction sched with
  | nil => intro s hs; exact hs
  | cons w rest ih =>
    intro s hs
    exact ih _ (poolInv_step items op k s w hs)

theorem pMapStep_failed_none {α β ε : Type} (items : List α) (op : α → Nat → Except ε β)
    (hok : ∀ (j : Nat) a, items[j]? = some a → ∃ b, op a j = .ok b)
    (s : PoolState ε β) (w : Nat) (hf : s.failed = none) :
    (pMapStep items op s w).failed = none := by
  cases hw : s.workers[w]? with
  | none => rw [pMapStep_eq_nowork items op s w hf hw]; exact hf
  | some st =>
    cases st with
    | done => rw [pMapStep_eq_done items op s w hf hw]; exact hf
    | idle =>
      by_cases hc : s.cursor < items.length
      · rw [pMapStep_eq_claim items op s w hf hw hc]; exact hf
      · rw [pMapStep_eq_retire items op s w hf hw hc]; exact hf
    | working idx =>
      cases ha : items[idx]? with
      | none => rw [pMapStep_eq_oob items op s w idx hf hw ha]; exact hf
      | some a =>
        obtain ⟨b, hb⟩ := hok idx a ha
        rw [pMapStep_eq_complete items op s w idx a b hf hw ha hb]
        exact hf

theorem pMapRun_failed_none {α β ε : Type} (items : List α) (op : α → Nat → Except ε β)
    (k : Nat) (sched : List Nat)
    (hok : ∀ (j : Nat) a, items[j]? = some a → ∃ b, op a j = .ok b) :
    (pMapRun items op k sched).failed = none := by
  rw [pMapRun]
  suffices h : ∀ s : PoolState ε β, s.failed = none →
      (sched.foldl (pMapStep items op) s).failed = none from h _ rfl
  induction sched with
  | nil => intro s hs; exact hs
  | cons w rest ih =>
    intro s hs
    exact ih _ (pMapStep_failed_none items op hok s w hs)

theorem allDone_status {ε β : Type} {s : PoolState ε β} (hd : allDone s = true)
    (w : Nat) (st : WStatus) (h : s.workers[w]? = some st) : st = .done := by
  unfold allDone at hd
  rw [List.all_eq_true] at hd
  have hm : st ∈ s.workers := by
    rcases List.getElem?_eq_some.mp h with ⟨hl, he⟩
    exact he ▸ List.getElem_mem hl
  have := hd st hm
  cases st with
  | done => rfl
  | idle => simp at this
  | working idx => simp at this

/-- Master lemma for the worker pool: under any scheduler reaching the
settled state, if no item's operation rejects, `pMap` resolves to the
full output array, positionally matching the input. -/
theorem pMapRun_allDone_spec {α β ε : Type} (items : List α) (op : α → Nat → Except ε β)
    (k : Nat) (sched : List Nat) (hk : 1 ≤ k)
    (hok : ∀ (j : Nat) a, items[j]? = some a → ∃ b, op a j = .ok b)
    (hdone : allDone (pMapRun items op k sched) = true) :
    pMapResult (pMapRun items op k sched) = .ok (pMapRun items op k sched).out ∧
      (pMapRun items op k sched).out.length = items.length ∧
      ∀ (j : Nat) a b, items[j]? = some a → op a j = .ok b →
        (pMapRun items op k sched).out[j]? = some (some b) := by
  obtain ⟨hout, hwk, hcur, hwlt, hdis, hcomp, hunc, hdn⟩ := poolInv_run items op k sched
  have hfail := pMapRun_failed_none items op k sched hok
  refine ⟨by rw [pMapResult, hfail], hout, ?_⟩
  intro j a b ha hb
  have hjlt : j < items.length := by
    rcases List.getElem?_eq_some.mp ha with ⟨hl, _⟩; exact hl
  by_cases hN : items.length = 0
  · omega
  · -- some worker exists and is done, so the cursor is exhausted
    have hw0 : 0 < (pMapRun items op k sched).workers.length := by
      rw [hwk]; omega
    have hst : (pMapRun items op k sched).workers[0]? =
        some ((pMapRun items op k sched).workers[0]) := List.getElem?_eq_getElem hw0
    have hdone0 : (pMapRun items op k sched).workers[0] = WStatus.done :=
      allDone_status hdone 0 _ hst
    have hfull : items.length ≤ (pMapRun items op k sched).cursor :=
      hdn 0 (by rw [hst, hdone0])
    refine hcomp j (by omega) ?_ a ha b hb
    intro w' hct
    have : WStatus.working j = WStatus.done := allDone_status hdone w' _ hct
    cases this

/-- A pure (never-throwing) operation, as `pMap` is used by the pipeline. -/
def okOp {α β : Type} (f : α → Nat → β) : α → Nat → Except Unit β :=
  fun a i => .ok (f a i)

/-- Claim C3: for every input list, every operation and every concurrency
bound `k ≥ 1` (also `k < N`), once all workers have finished — under any
completion order, i.e. any schedule — `pMap` resolves to an output array
of length `N` whose slot `i` holds `op(items[i], i)`. -/
theorem C3_pmap_positional (α β : Type) (items : List α) (f : α → Nat → β)
    (k : Nat) (sched : List Nat) (hk : 1 ≤ k)
    (hdone : allDone (pMapRun items (okOp f) k sched) = true) :
    pMapResult (pMapRun items (okOp f) k sched) =
        .ok (pMapRun items (okOp f) k sched).out ∧
      (pMapRun items (okOp f) k sched).out.length = items.length ∧
      ∀ (j : Nat) a, items[j]? = some a →
        (pMapRun items (okOp f) k sched).out[j]? = some (some (f a j)) := by
  obtain ⟨h1, h2, h3⟩ :=
    pMapRun_allDone_spec items (okOp f) k sched hk (fun j a _ => ⟨f a j, rfl⟩) hdone
  exact ⟨h1, h2, fun j a ha => h3 j a (f a j) ha rfl⟩

/-- Witness for C3: two items, two workers, and a schedule under which
worker 1 completes item 1 before worker 0 completes item 0; the output
is still positional. -/
theorem C3_pmap_positional_witness :
    (1 ≤ 2 ∧ allDone (pMapRun [10, 20] (okOp (fun a i => a + i)) 2 [0, 1, 1, 0, 0, 1]) = true) ∧
      (pMapResult (pMapRun [10, 20] (okOp (fun a i => a + i)) 2 [0, 1, 1, 0, 0, 1]) =
          .ok (pMapRun [10, 20] (okOp (fun a i => a + i)) 2 [0, 1, 1, 0, 0, 1]).out ∧
        (pMapRun [10, 20] (okOp (fun a i => a + i)) 2 [0, 1, 1, 0, 0, 1]).out.length = 2 ∧
        ∀ (j : Nat) a, [10, 20][j]? = some a →
          (pMapRun [10, 20] (okOp (fun a i => a + i)) 2 [0, 1, 1, 0, 0, 1]).out[j]? =
            some (some (a + j))) :=
  ⟨⟨by decide, by decide⟩,
    C3_pmap_positional Nat Nat [10, 20] (fun a i => a + i) 2 [0, 1, 1, 0, 0, 1]
      (by decide) (by decide)⟩

/-- Counterexample for claim C4 as stated: `pMap` has no internal
`try/catch`, so an operation that throws rejects the shared
`Promise.all` and the whole batch aborts with that exception — no output
array (not even partial) is returned.  Concretely, with one item and an
op that throws, `pMap` propagates the exception. -/
theorem C4_counterexample_pmap_throws :
    pMapResult (pMapRun [0] (fun _ _ => (.error "boom" : Except String Nat)) 1 [0, 0]) =
      .error "boom" := by
  rfl

/-- Claim C4 (amended): `pMap` adds no error handling of its own — the
caller decides per-item error handling inside `op`.  When `op` handles
each item's failure case internally and returns a value instead of
throwing, no exception propagates: the batch resolves, every slot is
produced, and a slot holds exactly what `op` returned for its item.  (If
`op` itself throws, the exception propagates and aborts the batch, per
the counterexample.) -/
theorem C4_pmap_isolation (α β ε : Type) (items : List α) (op : α → Nat → Except ε β)
    (k : Nat) (sched : List Nat) (hk : 1 ≤ k)
    (hop : ∀ (j : Nat) a, items[j]? = some a → ∃ b, op a j = .ok b)
    (hdone : allDone (pMapRun items op k sched) = true) :
    ∃ out : List (Option β), pMapResult (pMapRun items op k sched) = .ok out ∧
      out.length = items.length ∧
      ∀ (j : Nat) a b, items[j]? = some a → op a j = .ok b → out[j]? = some (some b) :=
  ⟨(pMapRun items op k sched).out, pMapRun_allDone_spec items op k sched hk hop hdone⟩

/-- Witness for the amended C4: an op of the failure-handling shape
(returns a sentinel `.ok 0` for a "bad" item instead of throwing); the
batch resolves with every slot filled. -/
theorem C4_pmap_isolation_witness :
    ∃ out : List (Option Nat),
      pMapResult (pMapRun [5, 99] (fun a _ => if a < 10 then .ok (a + 1) else (.ok 0 : Except String Nat)) 2
          [0, 1, 0, 1, 0, 1]) = .ok out ∧
        out.length = 2 ∧
        ∀ (j : Nat) a b, [5, 99][j]? = some a →
          (if a < 10 then .ok (a + 1) else (.ok 0 : Except String Nat)) = .ok b →
            out[j]? = some (some b) :=
  C4_pmap_isolation Nat Nat String [5, 99]
    (fun a _ => if a < 10 then .ok (a + 1) else .ok 0) 2 [0, 1, 0, 1, 0, 1]
    (by decide)
    (fun j a _ => if h : a < 10 then ⟨a + 1, by simp [h]⟩ else ⟨0, by simp [h]⟩)
    (by decide)

/-! ## Usage Aggregator: `weekWindows`, `fetchUsageWindow`, `getUsageTotal`

Dates are abstracted to integer day numbers: `parseYMD`/`toYMD` become
the identity and `addDays` is integer addition, so
`weekWindows(start, end)` walks `s` from `start` in steps of at most a
week, clipping the final window to `end`. -/

/-- One iteration of the `weekWindows` loop body, with an explicit fuel
bound on the number of iterations (the loop advances `s` by at least one
day per turn, so `e + 1 - s` iterations always suffice; see
`weekWindowsAux_eq`). -/
def weekWindowsAux : Nat → Int → Int → List (Int × Int)
  | 0, _, _ => []
  | fuel + 1, s, e =>
    if s ≤ e then (s, min (s + 6) e) :: weekWindowsAux fuel (min (s + 6) e + 1) e
    else []

/-- `weekWindows(startYMD, endYMD)`:
`while (s <= end) { e = s+6; ec = min(e, end); yield (s, ec); s = ec+1 }`.
The loop equations are `weekWindows_pos` / `weekWindows_neg`. -/
def weekWindows (s e : Int) : List (Int × Int) :=
  weekWindowsAux (e + 1 - s).toNat s e

theorem weekWindowsAux_eq (fuel₁ : Nat) :
    ∀ (fuel₂ : Nat) (s e : Int), (e + 1 - s).toNat ≤ fuel₁ → (e + 1 - s).toNat ≤ fuel₂ →
      weekWindowsAux fuel₁ s e = weekWindowsAux fuel₂ s e := by
  induction fuel₁ with
  | zero =>
    intro fuel₂ s e h1 h2
    have hne : ¬ s ≤ e := by omega
    cases fuel₂ with
    | zero => rfl
    | succ f => simp [weekWindowsAux, hne]
  | succ f₁ ih =>
    intro fuel₂ s e h1 h2
    by_cases hse : s ≤ e
    · cases fuel₂ with
      | zero => omega
      | succ f₂ =>
        simp only [weekWindowsAux, if_pos hse]
        have hrec : (e + 1 - (min (s + 6) e + 1)).toNat ≤ f₁ := by omega
        have hrec2 : (e + 1 - (min (s + 6) e + 1)).toNat ≤ f₂ := by omega
        rw [ih f₂ (min (s + 6) e + 1) e hrec hrec2]
    · cases fuel₂ with
      | zero => simp [weekWindowsAux, hse]
      | succ f₂ => simp [weekWindowsAux, hse]

theorem weekWindows_pos {s e : Int} (h : s ≤ e) :
    weekWindows s e = (s, min (s + 6) e) :: weekWindows (min (s + 6) e + 1) e := by
  unfold weekWindows
  have h1 : (e + 1 - s).toNat = (e - s).toNat + 1 := by omega
  rw [h1]
  simp only [weekWindowsAux, if_pos h]
  rw [weekWindowsAux_eq ((e - s).toNat) ((e + 1 - (min (s + 6) e + 1)).toNat)
    (min (s + 6) e + 1) e (by omega) (by omega)]

theorem weekWindows_neg {s e : Int} (h : ¬ s ≤ e) : weekWindows s e = [] := by
  unfold weekWindows
  have h1 : (e + 1 - s).toNat = 0 := by omega
  rw [h1]
  rfl

/-- The windows starting at `nxt`, in order: each window spans at most 7
inclusive days and the next window starts the day after it ends. -/
def chainedFrom (nxt : Int) : List (Int × Int) → Prop
  | [] => True
  | w :: rest => w.1 = nxt ∧ w.1 ≤ w.2 ∧ w.2 ≤ w.1 + 6 ∧ chainedFrom (w.2 + 1) rest

theorem weekWindows_chain (n : Nat) : ∀ s e : Int, (e - s).toNat = n → s ≤ e →
    chainedFrom s (weekWindows s e) ∧
      (weekWindows s e).getLast?.map Prod.snd = some e ∧
      (∀ d : Int, (s ≤ d ∧ d ≤ e) ↔ ∃ w ∈ weekWindows s e, w.1 ≤ d ∧ d ≤ w.2) ∧
      (weekWindows s e).length = (e - s).toNat / 7 + 1 := by
  induction n using Nat.strong_induction_on with
  | _ n ih =>
    intro s e hn h
    rw [weekWindows_pos h]
    by_cases hm : min (s + 6) e + 1 ≤ e
    · obtain ⟨ihc, ihl, ihcov, ihlen⟩ :=
        ih ((e - (min (s + 6) e + 1)).toNat) (by omega) (min (s + 6) e + 1) e rfl hm
      have hne : weekWindows (min (s + 6) e + 1) e ≠ [] := by
        rw [weekWindows_pos hm]
        simp
      refine ⟨⟨rfl, by omega, by omega, ihc⟩, ?_, ?_, ?_⟩
      · rcases hrest : weekWindows (min (s + 6) e + 1) e with _ | ⟨r0, rs⟩
        · exact absurd hrest hne
        · rw [List.getLast?_cons_cons]
          rw [hrest] at ihl
          exact ihl
      · intro d
        constructor
        · intro hd
          by_cases hdm : d ≤ min (s + 6) e
          · exact ⟨(s, min (s + 6) e), List.mem_cons_self _ _, by omega, hdm⟩
          · obtain ⟨w, hw, h1, h2⟩ := (ihcov d).mp (by omega)
            exact ⟨w, List.mem_cons_of_mem _ hw, h1, h2⟩
        · rintro ⟨w, hw, h1, h2⟩
          rcases List.mem_cons.mp hw with hw | hw
          · subst hw
            constructor <;> simp_all
          · have := (ihcov d).mpr ⟨w, hw, h1, h2⟩
            omega
      · simp only [List.length_cons, ihlen]
        omega
    · -- final window: `min (s+6) e = e`
      have hme : min (s + 6) e = e := by omega
      rw [hme, weekWindows_neg (show ¬ e + 1 ≤ e by omega)]
      refine ⟨⟨rfl, h, by omega, trivial⟩, by simp, ?_, ?_⟩
      · intro d
        simp only [List.mem_singleton]
        constructor
        · intro hd
          exact ⟨(s, e), rfl, hd.1, hd.2⟩
        · rintro ⟨w, hw, h1, h2⟩
          subst hw
          exact ⟨h1, h2⟩
      · simp only [List.length_singleton]
        omega

/-- Claim C5: for `start ≤ end`, `weekWindows` yields consecutive
windows of at most 7 days each, the first starting at `start`, each next
window starting the day after the previous ends, the last clipped to
`end` exactly, their union covering `[start, end]`; for
`end - start = 20` days there are exactly 3 windows. -/
theorem C5_week_windows (s e : Int) (h : s ≤ e) :
    chainedFrom s (weekWindows s e) ∧
      (weekWindows s e).getLast?.map Prod.snd = some e ∧
      (∀ d : Int, (s ≤ d ∧ d ≤ e) ↔ ∃ w ∈ weekWindows s e, w.1 ≤ d ∧ d ≤ w.2) ∧
      (e - s = 20 → (weekWindows s e).length = 3) := by
  obtain ⟨hc, hl, hcov, hlen⟩ := weekWindows_chain ((e - s).toNat) s e rfl h
  exact ⟨hc, hl, hcov, fun h20 => by rw [hlen]; omega⟩

/-- Witness for C5 at the concrete 20-day range `[0, 20]`. -/
theorem C5_week_windows_witness :
    (0 : Int) ≤ 20 ∧
      (chainedFrom 0 (weekWindows 0 20) ∧
        (weekWindows 0 20).getLast?.map Prod.snd = some 20 ∧
        (∀ d : Int, (0 ≤ d ∧ d ≤ 20) ↔ ∃ w ∈ weekWindows 0 20, w.1 ≤ d ∧ d ≤ w.2) ∧
        ((20 : Int) - 0 = 20 → (weekWindows 0 20).length = 3)) :=
  ⟨by norm_num, C5_week_windows 0 20 (by norm_num)⟩

/-- Byte extraction from one `subscriberUsageOverPeriod` response:
`total.quantityPerType["33"]`, coerced, defaulting to `0`. -/
def qptBytes (r : JVal) : Rat :=
  let total := (jsOr [jGet2 r "subscriberUsageOverPeriod" "total",
    jGet2 r "subscriberUsageOverPeriodRsp" "total"]).getD (jobj [])
  let qpt := (jsOr [jGet total "quantityPerType"]).getD (jobj [])
  match jGet qpt "33" with
  | some (jnum q) => q
  | some v =>
    match jsToNumber v with
    | some q => q
    | none => 0
  | none => 0

/-- `fetchUsageWindow(subscriberId, startYMD, endYMD)`: one `callOCS`
(the oracle is already specialised to the subscriber) whose rejection
propagates; a successful response is reduced to its byte count. -/
def fetchUsageWindow (net : Int → Int → Except Unit JVal) (ws we : Int) : Except Unit Rat :=
  match net ws we with
  | .error er => .error er
  | .ok r => .ok (qptBytes r)

/-- The sequential `for (const w of wins) total += await fetchUsageWindow(...)`. -/
def usageFold (net : Int → Int → Except Unit JVal) : List (Int × Int) → Rat → Except Unit Rat
  | [], acc => .ok acc
  | w :: rest, acc =>
    match fetchUsageWindow net w.1 w.2 with
    | .error er => .error er
    | .ok b => usageFold net rest (acc + b)

/-- `getUsageTotal`: sum the byte counts over the weekly windows of the
period (the period endpoints are computed by the caller from the clock
and the package activation date). -/
def getUsageTotal (net : Int → Int → Except Unit JVal) (s e : Int) : Except Unit Rat :=
  usageFold net (weekWindows s e) 0

/-- Claim C6: a reversed range (`startDate > endDate`) produces zero
windows and a zero total without throwing, for every network oracle —
even one whose every request fails. -/
theorem C6_reversed_range (net : Int → Int → Except Unit JVal) (s e : Int) (h : e < s) :
    weekWindows s e = [] ∧ getUsageTotal net s e = .ok 0 := by
  have hne : ¬ s ≤ e := by omega
  exact ⟨weekWindows_neg hne, by rw [getUsageTotal, weekWindows_neg hne]; rfl⟩

/-- Witness for C6: the 2-day-reversed range `[5, 3]` against an
always-failing network. -/
theorem C6_reversed_range_witness :
    (3 : Int) < 5 ∧
      (weekWindows 5 3 = [] ∧
        getUsageTotal (fun _ _ => .error ()) 5 3 = .ok 0) :=
  ⟨by norm_num, C6_reversed_range (fun _ _ => .error ()) 5 3 (by norm_num)⟩

/-! ## Row Assembler: `fetchAllData`

Embeds `fetchAllData(accountIdParam)` (lib/teltrip.js): resolve the
account id (`ConfigError` when falsy), fetch and shape-normalize the
subscriber list (its failure fails the whole call), build one initial
row per subscriber, then enrich each row in order — latest package
(errors swallowed), template cost (cached; only strictly positive values
land), package-fee fallback, usage total (errors swallowed, with a
used-bytes fallback) — and return the rows.

`getLatestPackage` is abstracted as an oracle producing the normalized
package record (or null, or a thrown error): no claim concerns its
internal sorting, only how its result and failure are consumed. -/

/-- The normalized result of `getLatestPackage`. -/
structure Pkg where
  name : Option JVal
  tplId : Option Rat
  tsact : Option JVal
  tsexp : Option JVal
  pck : Option JVal
  used : Option JVal
  fee : Option Rat

/-- All network oracles the pipeline consults. -/
structure Nets where
  subsResp : Rat → Except Unit JVal
  pkg : JVal → Except Unit (Option Pkg)
  tpl : TplNet
  usage : JVal → Int → Int → Except Unit JVal

/-- One output row (the `rows.map(...)` literal). -/
structure Row where
  iccid : Option JVal
  imsi : Option JVal
  phoneNumber : Option JVal
  activationDate : Option JVal
  lastUsageDate : Option JVal
  subscriberStatus : Option JVal
  simStatus : Option JVal
  esim : Option JVal
  activationCode : Option JVal
  prepaid : Option JVal
  balance : Option JVal
  account : Option JVal
  reseller : Option JVal
  lastMcc : Option JVal
  lastMnc : Option JVal
  prepaidpackagetemplatename : Option JVal
  prepaidpackagetemplateid : Option Rat
  tsactivationutc : Option JVal
  tsexpirationutc : Option JVal
  pckdatabyte : Option JVal
  useddatabyte : Option JVal
  subscriberUsageOverPeriod : Option Rat
  subscriberOneTimeCost : Option Rat
  sid : Option JVal
  pkgOneTime : Option Rat

/-- First non-nullish value of a `a ?? b ?? ...` chain of accesses. -/
def jsNN : List (Option JVal) → Option JVal
  | [] => none
  | c :: rest =>
    match c with
    | some jnull => jsNN rest
    | some v => some v
    | none => jsNN rest

/-- `Number(x)` where `x` may be an absent property (`Number(undefined)`
is `NaN`). -/
def jsToNumberU : Option JVal → Option Rat
  | none => none
  | some v => jsToNumber v

/-- `Number(a) || Number(b) || ... || null` followed by the
`Number.isFinite(tplId) ? tplId : null` guard: the first finite nonzero
coercion, else null. -/
def numOr : List (Option Rat) → Option Rat
  | [] => none
  | c :: rest =>
    match c with
    | some q => if q ≠ 0 then some q else numOr rest
    | none => numOr rest

/-- The subscriber-level template id hint. -/
def subTplId (s : JVal) : Option Rat :=
  numOr [jsToNumberU (jGet s "prepaidpackagetemplateid"),
    jsToNumberU (jGet s "prepaidPackageTemplateId"),
    jsToNumberU (jGet s "templateId")]

/-- The `subs.map((s) => {...})` row literal. -/
def initRow (s : JVal) : Row where
  iccid := jsNN [((jGet s "imsiList").bind jIndex0).bind (jGet · "iccid"),
    jGet2 s "sim" "iccid", jGet s "iccid"]
  imsi := jsNN [((jGet s "imsiList").bind jIndex0).bind (jGet · "imsi"), jGet s "imsi"]
  phoneNumber := jsNN [((jGet s "phoneNumberList").bind jIndex0).bind (jGet · "phoneNumber"),
    jGet s "phoneNumber"]
  activationDate := jGetNN s "activationDate"
  lastUsageDate := jGetNN s "lastUsageDate"
  subscriberStatus := jGetNN s "subscriberStatus"
  simStatus := jsNN [jGet2 s "sim" "status", jGet s "simStatus"]
  esim := jsNN [jGet2 s "sim" "esim", jGet s "esim"]
  activationCode := jsNN [jGet2 s "sim" "activationCode", jGet s "activationCode"]
  prepaid := jGetNN s "prepaid"
  balance := jGetNN s "balance"
  account := jGetNN s "account"
  reseller := jGetNN s "reseller"
  lastMcc := jGetNN s "lastMcc"
  lastMnc := jGetNN s "lastMnc"
  prepaidpackagetemplatename := jsNN [jGet s "prepaidpackagetemplatename",
    jGet s "prepaidPackageTemplateName"]
  prepaidpackagetemplateid := subTplId s
  tsactivationutc := none
  tsexpirationutc := none
  pckdatabyte := none
  useddatabyte := none
  subscriberUsageOverPeriod := none
  subscriberOneTimeCost := none
  sid := jsNN [jGet s "subscriberId", jGet s "id"]
  pkgOneTime := none

/-- The `try { pkg = await getLatestPackage(...) ... } catch {}` block:
merge the latest package's fields into the row; a thrown or null package
leaves the row untouched. -/
def stepPkg (nets : Nets) (r : Row) : Row :=
  match nets.pkg (r.sid.getD jnull) with
  | .error _ => r
  | .ok none => r
  | .ok (some p) =>
    { r with
      prepaidpackagetemplatename :=
        match r.prepaidpackagetemplatename with
        | none => p.name
        | some v => some v,
      prepaidpackagetemplateid :=
        match r.prepaidpackagetemplateid with
        | none => p.tplId
        | some v => some v,
      tsactivationutc := p.tsact,
      tsexpirationutc := p.tsexp,
      pckdatabyte := p.pck,
      useddatabyte := p.used,
      pkgOneTime := p.fee }

/-- The template-cost step: `if (cost != null && cost > 0)
r.subscriberOneTimeCost = cost;` (threading the template cache). -/
def stepCost (nets : Nets) (cache : TplCache) (r : Row) : Row × TplCache :=
  match r.prepaidpackagetemplateid with
  | none => (r, cache)
  | some t =>
    let res := getTemplateCost nets.tpl cache (jnum t)
    (match res.1 with
     | some c => if 0 < c then { r with subscriberOneTimeCost := some c } else r
     | none => r,
     res.2.1)

/-- The package-fee fallback: `if ((cost == null || cost === 0) &&
r._pkgOneTime != null) r.subscriberOneTimeCost = r._pkgOneTime;`. -/
def stepFee (r : Row) : Row :=
  if (r.subscriberOneTimeCost = none ∨ r.subscriberOneTimeCost = some 0) ∧
      r.pkgOneTime ≠ none then
    { r with subscriberOneTimeCost := r.pkgOneTime }
  else r

/-- The usage step: aggregate from the package activation date (else the
last 28 days) to today; on success a zero total — and on failure any
total — falls back to the package's used-byte count when that is a
number. -/
def stepUsage (nets : Nets) (dateOf : JVal → Int) (today : Int) (r : Row) : Row :=
  let start : Int :=
    match r.tsactivationutc with
    | some v => if jTruthy v then dateOf v else today - 27
    | none => today - 27
  match getUsageTotal (nets.usage (r.sid.getD jnull)) start today with
  | .ok tot =>
    if tot = 0 then
      match r.useddatabyte with
      | some (jnum q) => { r with subscriberUsageOverPeriod := some q }
      | _ => { r with subscriberUsageOverPeriod := some tot }
    else { r with subscriberUsageOverPeriod := some tot }
  | .error _ =>
    match r.useddatabyte with
    | some (jnum q) => { r with subscriberUsageOverPeriod := some q }
    | _ => r

/-- `delete r._sid; delete r._pkgOneTime`. -/
def clearTmp (r : Row) : Row :=
  { r with sid := none, pkgOneTime := none }

/-- One turn of the enrichment loop.  A falsy `_sid` skips the whole
body (`continue`), leaving even the temporaries in place. -/
def enrichRow (nets : Nets) (dateOf : JVal → Int) (today : Int)
    (cache : TplCache) (r : Row) : Row × TplCache :=
  if oTruthy r.sid then
    let r1 := stepPkg nets r
    let rc := stepCost nets cache r1
    let r3 := stepFee rc.1
    let r4 := stepUsage nets dateOf today r3
    (clearTmp r4, rc.2)
  else (r, cache)

/-- `for (const r of rows) { ... }`, threading the template cache. -/
def enrichAll (nets : Nets) (dateOf : JVal → Int) (today : Int) :
    TplCache → List Row → List Row × TplCache
  | cache, [] => ([], cache)
  | cache, r :: rest =>
    let rc := enrichRow nets dateOf today cache r
    let rest' := enrichAll nets dateOf today rc.2 rest
    (rc.1 :: rest'.1, rest'.2)

/-- Failures that abort the whole `fetchAllData` call. -/
inductive FetchErr where
  | configError
  | listError

/-- `Number(accountIdParam || DEFAULT_ACCOUNT_ID || 0)` plus the
`if (!accountId) throw` guard: `none` is the `ConfigError` case. -/
def resolveAccountId (p : JVal) (dflt : Rat) : Option Rat :=
  let raw : JVal := if jTruthy p then p else if dflt ≠ 0 then jnum dflt else jnum 0
  match jsToNumber raw with
  | none => none
  | some a => if a = 0 then none else some a

/-- `getSubscribers`: shape-normalize the subscriber list; all variants
falsy yields `[]`; a truthy non-array makes the subsequent `.map` throw. -/
def extractSubs (r : JVal) : Except Unit (List JVal) :=
  match (jsOr [jGet2 r "listSubscriberRsp" "subscriber",
    jGet2 r "listSubscriber" "subscriberList", jGet r "subscriberList"]).getD (jarr []) with
  | jarr xs => .ok xs
  | _ => .error ()

/-- `fetchAllData(accountIdParam)`. -/
def fetchAllData (nets : Nets) (dateOf : JVal → Int) (today : Int)
    (accountIdParam : JVal) (dflt : Rat) (cache : TplCache) : Except FetchErr (List Row) :=
  match resolveAccountId accountIdParam dflt with
  | none => .error .configError
  | some accountId =>
    match nets.subsResp accountId with
    | .error _ => .error .listError
    | .ok resp =>
      match extractSubs resp with
      | .error _ => .error .listError
      | .ok subs => .ok (enrichAll nets dateOf today cache (subs.map initRow)).1

theorem enrichAll_length (nets : Nets) (dateOf : JVal → Int) (today : Int) :
    ∀ (cache : TplCache) (rs : List Row),
      (enrichAll nets dateOf today cache rs).1.length = rs.length := by
  intro cache rs
  induction rs generalizing cache with
  | nil => rfl
  | cons r rest ih => simp [enrichAll, ih]

/-- Positional correspondence: slot `i` of the enriched list is the
enrichment (under the cache as threaded to that point) of row `i`. -/
theorem enrichAll_pos (nets : Nets) (dateOf : JVal → Int) (today : Int) :
    ∀ (cache : TplCache) (rs : List Row) (i : Nat) (r : Row), rs[i]? = some r →
      ∃ c', (enrichAll nets dateOf today cache rs).1[i]? =
        some (enrichRow nets dateOf today c' r).1 := by
  intro cache rs
  induction rs generalizing cache with
  | nil => intro i r h; simp at h
  | cons r0 rest ih =>
    intro i r h
    cases i with
    | zero =>
      simp only [List.getElem?_cons_zero] at h
      cases h
      exact ⟨cache, by simp [enrichAll]⟩
    | succ i =>
      simp only [List.getElem?_cons_succ] at h
      obtain ⟨c', hc'⟩ :=
        ih (enrichRow nets dateOf today cache r0).2 i r h
      exact ⟨c', by simpa [enrichAll] using hc'⟩

/-- A cache all of whose entries are `0` or null — the only values the
resolver can cache when every template lookup fails. -/
def NullCache (c : TplCache) : Prop :=
  ∀ q : Rat, cacheGet c q = none ∨ cacheGet c q = some (some 0) ∨ cacheGet c q = some none

theorem getTemplateCost_eq_hit (net : TplNet) (cache : TplCache) (tid : JVal)
    (id : Rat) (v : Option Rat) (hn : jsToNumber tid = some id) (hz : id ≠ 0)
    (hcache : cacheGet cache id = some v) :
    getTemplateCost net cache tid = (v, cache, 0) := by
  simp [getTemplateCost, hn, hz, hcache]

theorem getTemplateCost_eq_miss_fail (net : TplNet) (cache : TplCache) (tid : JVal)
    (id : Rat) (hn : jsToNumber tid = some id) (hz : id ≠ 0)
    (hcache : cacheGet cache id = none)
    (hA : net.verbA id = .error ()) (hB : net.verbB id = .error ()) :
    getTemplateCost net cache tid = (some 0, cacheSet cache id (some 0), 2) := by
  simp [getTemplateCost, hn, hz, hcache, hA, hB]

theorem getTemplateCost_failing (net : TplNet) (cache : TplCache) (tid : JVal)
    (hA : ∀ q, net.verbA q = .error ()) (hB : ∀ q, net.verbB q = .error ())
    (hc : NullCache cache) :
    ((getTemplateCost net cache tid).1 = some 0 ∨ (getTemplateCost net cache tid).1 = none) ∧
      NullCache (getTemplateCost net cache tid).2.1 := by
  cases hn : jsToNumber tid with
  | none =>
    have he : getTemplateCost net cache tid = (none, cache, 0) := by
      simp [getTemplateCost, hn]
    rw [he]
    exact ⟨Or.inr rfl, hc⟩
  | some id =>
    by_cases hz : id = 0
    · have he : getTemplateCost net cache tid = (none, cache, 0) := by
        subst hz
        simp [getTemplateCost, hn]
      rw [he]
      exact ⟨Or.inr rfl, hc⟩
    · rcases hc id with h | h | h
      · rw [getTemplateCost_eq_miss_fail net cache tid id hn hz h (hA id) (hB id)]
        refine ⟨Or.inl rfl, ?_⟩
        intro q
        by_cases hq : id = q
        · subst hq
          right; left
          simp [cacheGet, cacheSet]
        · have : cacheGet (cacheSet cache id (some 0)) q = cacheGet cache q := by
            simp [cacheGet, cacheSet, hq]
          rw [this]
          exact hc q
      · rw [getTemplateCost_eq_hit net cache tid id (some 0) hn hz h]
        exact ⟨Or.inl rfl, hc⟩
      · rw [getTemplateCost_eq_hit net cache tid id none hn hz h]
        exact ⟨Or.inr rfl, hc⟩

theorem getUsageTotal_err (net : Int → Int → Except Unit JVal)
    (hu : ∀ ws we, net ws we = .error ()) (s e : Int) (h : s ≤ e) :
    getUsageTotal net s e = .error () := by
  rw [getUsageTotal, weekWindows_pos h]
  simp [usageFold, fetchUsageWindow, hu]

/-- With every enrichment oracle failing, a row with a truthy id comes
back as its initial value with only the temporaries cleared — every
enrichment field is still null. -/
theorem enrichRow_all_failing (nets : Nets) (dateOf : JVal → Int) (today : Int)
    (cache : TplCache) (s : JVal)
    (hpkg : ∀ v, nets.pkg v = .error ())
    (hA : ∀ q, nets.tpl.verbA q = .error ()) (hB : ∀ q, nets.tpl.verbB q = .error ())
    (hu : ∀ v ws we, nets.usage v ws we = .error ())
    (hc : NullCache cache) :
    (enrichRow nets dateOf today cache (initRow s)).1 =
      if oTruthy (initRow s).sid then clearTmp (initRow s) else initRow s := by
  by_cases hsid : oTruthy (initRow s).sid
  · rw [if_pos hsid]
    have h1 : stepPkg nets (initRow s) = initRow s := by
      unfold stepPkg
      rw [hpkg]
    have h2 : (stepCost nets cache (initRow s)).1 = initRow s := by
      unfold stepCost
      cases ht : (initRow s).prepaidpackagetemplateid with
      | none => rfl
      | some t =>
        dsimp only
        obtain ⟨hv, _⟩ := getTemplateCost_failing nets.tpl cache (jnum t) hA hB hc
        rcases hv with hv | hv
        · rw [hv]
          dsimp only
          rw [if_neg (by norm_num)]
        · rw [hv]
    have h3 : stepFee (initRow s) = initRow s := by
      unfold stepFee
      rw [if_neg]
      simp [initRow]
    have h4 : stepUsage nets dateOf today (initRow s) = initRow s := by
      unfold stepUsage
      have hts : (initRow s).tsactivationutc = none := by simp [initRow]
      rw [hts]
      dsimp only
      have hstart : getUsageTotal (nets.usage ((initRow s).sid.getD jnull))
          (today - 27) today = .error () := by
        exact getUsageTotal_err _ (fun ws we => hu _ ws we) _ _ (by omega)
      rw [hstart]
      have hub : (initRow s).useddatabyte = none := by simp [initRow]
      rw [hub]
    simp only [enrichRow, if_pos hsid, h1, h2, h3, h4]
  · rw [if_neg hsid]
    unfold enrichRow
    rw [if_neg hsid]

theorem enrichRow_cache_failing (nets : Nets) (dateOf : JVal → Int) (today : Int)
    (cache : TplCache) (r : Row)
    (hA : ∀ q, nets.tpl.verbA q = .error ()) (hB : ∀ q, nets.tpl.verbB q = .error ())
    (hc : NullCache cache) :
    NullCache (enrichRow nets dateOf today cache r).2 := by
  unfold enrichRow
  by_cases hsid : oTruthy r.sid
  · rw [if_pos hsid]
    dsimp only
    unfold stepCost
    cases ht : (stepPkg nets r).prepaidpackagetemplateid with
    | none => exact hc
    | some t =>
      dsimp only
      exact (getTemplateCost_failing nets.tpl cache (jnum t) hA hB hc).2
  · rw [if_neg hsid]
    exact hc

/-- Positional correspondence, strengthened: when every template lookup
fails, the threaded cache stays in the null-cache class. -/
theorem enrichAll_pos_nullcache (nets : Nets) (dateOf : JVal → Int) (today : Int)
    (hA : ∀ q, nets.tpl.verbA q = .error ()) (hB : ∀ q, nets.tpl.verbB q = .error ()) :
    ∀ (cache : TplCache) (rs : List Row) (i : Nat) (r : Row), NullCache cache →
      rs[i]? = some r →
      ∃ c', NullCache c' ∧ (enrichAll nets dateOf today cache rs).1[i]? =
        some (enrichRow nets dateOf today c' r).1 := by
  intro cache rs
  induction rs generalizing cache with
  | nil => intro i r _ h; simp at h
  | cons r0 rest ih =>
    intro i r hc h
    cases i with
    | zero =>
      simp only [List.getElem?_cons_zero] at h
      cases h
      exact ⟨cache, hc, by simp [enrichAll]⟩
    | succ i =>
      simp only [List.getElem?_cons_succ] at h
      obtain ⟨c', hc', h'⟩ :=
        ih (enrichRow nets dateOf today cache r0).2 i r
          (enrichRow_cache_failing nets dateOf today cache r0 hA hB hc) h
      exact ⟨c', hc', by simpa [enrichAll] using h'⟩

/-- Counterexample for claim C7 as stated ("a failed step leaves the
corresponding row fields null"): here the usage step fails (its oracle
always throws) but the package step succeeded with `useddatabyte = 5`,
and the catch block falls back to the used-byte count — the row's
`subscriberUsageOverPeriod` is 5, not null.  (The row itself is kept,
and the whole call still succeeds.) -/
def c7CounterNets : Nets where
  subsResp := fun _ => .ok (jobj [("subscriberList", jarr [jobj [("subscriberId", jnum 1)]])])
  pkg := fun _ => .ok (some ⟨none, none, none, none, none, some (jnum 5), none⟩)
  tpl := ⟨fun _ => .error (), fun _ => .error ()⟩
  usage := fun _ _ _ => .error ()

theorem C7_counterexample_usage_fallback :
    (∀ v ws we, c7CounterNets.usage v ws we = .error ()) ∧
      ((fetchAllData c7CounterNets (fun _ => 0) 0 (jnum 1) 0 []).toOption.bind
          List.head?).map Row.subscriberUsageOverPeriod = some (some 5) :=
  ⟨fun _ _ _ => rfl, by rfl⟩

/-- Claim C7 (amended): `fetchAllData` fails as a whole only on a config
error (unresolvable account id) or a subscriber-list failure; otherwise
it returns exactly one row per listed subscriber, in listing order (slot
`i` is the enrichment of subscriber `i`'s initial row), no matter how
the per-subscriber package/cost/usage steps fail; and when every
enrichment step fails the row keeps all its enrichment fields null —
except that a failed usage step falls back to the package's used-byte
count when the package step supplied one (per the counterexample). -/
theorem C7_row_per_subscriber (nets : Nets) (dateOf : JVal → Int) (today : Int)
    (p : JVal) (dflt : Rat) (cache : TplCache) :
    (resolveAccountId p dflt = none →
      fetchAllData nets dateOf today p dflt cache = .error .configError) ∧
    (∀ a : Rat, resolveAccountId p dflt = some a → nets.subsResp a = .error () →
      fetchAllData nets dateOf today p dflt cache = .error .listError) ∧
    (∀ (a : Rat) (resp : JVal) (subs : List JVal),
      resolveAccountId p dflt = some a → nets.subsResp a = .ok resp →
      extractSubs resp = .ok subs →
      ∃ rows : List Row, fetchAllData nets dateOf today p dflt cache = .ok rows ∧
        rows.length = subs.length ∧
        (∀ (i : Nat) (s : JVal), subs[i]? = some s →
          ∃ c', rows[i]? = some (enrichRow nets dateOf today c' (initRow s)).1) ∧
        ((∀ v, nets.pkg v = .error ()) → (∀ q, nets.tpl.verbA q = .error ()) →
          (∀ q, nets.tpl.verbB q = .error ()) → (∀ v ws we, nets.usage v ws we = .error ()) →
          NullCache cache →
          ∀ (i : Nat) (s : JVal), subs[i]? = some s →
            rows[i]? = some (if oTruthy (initRow s).sid then clearTmp (initRow s)
              else initRow s))) := by
  refine ⟨?_, ?_, ?_⟩
  · intro h
    simp [fetchAllData, h]
  · intro a ha hs
    simp [fetchAllData, ha, hs]
  · intro a resp subs ha hs he
    refine ⟨(enrichAll nets dateOf today cache (subs.map initRow)).1,
      by simp [fetchAllData, ha, hs, he], ?_, ?_, ?_⟩
    · rw [enrichAll_length]
      simp
    · intro i s hsub
      have hm : (subs.map initRow)[i]? = some (initRow s) := by
        simp [List.getElem?_map, hsub]
      exact enrichAll_pos nets dateOf today cache _ i _ hm
    · intro hpkg hA hB hu hc i s hsub
      have hm : (subs.map initRow)[i]? = some (initRow s) := by
        simp [List.getElem?_map, hsub]
      obtain ⟨c', hc', hrow⟩ :=
        enrichAll_pos_nullcache nets dateOf today hA hB cache _ i _ hc hm
      rw [hrow, enrichRow_all_failing nets dateOf today c' s hpkg hA hB hu hc']

/-- Witness for the amended C7: a two-subscriber account (one with a
usable id, one without) against fully failing enrichment oracles. -/
def c7WitnessNets : Nets where
  subsResp := fun _ =>
    .ok (jobj [("subscriberList", jarr [jobj [("subscriberId", jnum 1)], jobj []])])
  pkg := fun _ => .error ()
  tpl := ⟨fun _ => .error (), fun _ => .error ()⟩
  usage := fun _ _ _ => .error ()

theorem C7_row_per_subscriber_witness :
    ∃ rows : List Row, fetchAllData c7WitnessNets (fun _ => 0) 0 (jnum 3) 0 [] = .ok rows ∧
      rows.length = ([jobj [("subscriberId", jnum 1)], jobj []] : List JVal).length ∧
      (∀ (i : Nat) (s : JVal), ([jobj [("subscriberId", jnum 1)], jobj []] : List JVal)[i]? = some s →
        ∃ c', rows[i]? = some (enrichRow c7WitnessNets (fun _ => 0) 0 c' (initRow s)).1) ∧
      ((∀ v, c7WitnessNets.pkg v = .error ()) → (∀ q, c7WitnessNets.tpl.verbA q = .error ()) →
        (∀ q, c7WitnessNets.tpl.verbB q = .error ()) →
        (∀ v ws we, c7WitnessNets.usage v ws we = .error ()) →
        NullCache [] →
        ∀ (i : Nat) (s : JVal), ([jobj [("subscriberId", jnum 1)], jobj []] : List JVal)[i]? = some s →
          rows[i]? = some (if oTruthy (initRow s).sid then clearTmp (initRow s)
            else initRow s)) :=
  (C7_row_per_subscriber c7WitnessNets (fun _ => 0) 0 (jnum 3) 0 []).2.2 3
    (jobj [("subscriberList", jarr [jobj [("subscriberId", jnum 1)], jobj []])])
    [jobj [("subscriberId", jnum 1)], jobj []] (by rfl) (by rfl) (by rfl)

theorem stepUsage_cost (nets : Nets) (dateOf : JVal → Int) (today : Int) (r : Row) :
    (stepUsage nets dateOf today r).subscriberOneTimeCost = r.subscriberOneTimeCost := by
  unfold stepUsage
  dsimp only
  split
  · split
    · split <;> rfl
    · rfl
  · split <;> rfl

/-- Counterexample for claim C8 as stated: a template whose only
cost-like field is `cost: -5` resolves to `-5` — neither null nor zero —
yet the package-level fee (7) is still used, because the code requires a
strictly positive template cost.  This falsifies the claimed "if and
only if the resolved template cost is null or zero". -/
def c8CounterNets : Nets where
  subsResp := fun _ =>
    .ok (jobj [("subscriberList",
      jarr [jobj [("subscriberId", jnum 1), ("prepaidpackagetemplateid", jnum 9)]])])
  pkg := fun _ => .ok (some ⟨none, none, none, none, none, none, some 7⟩)
  tpl := ⟨fun _ =>
    .ok (jobj [("listPrepaidPackageTemplateRsp",
      jobj [("prepaidPackageTemplate", jobj [("cost", jnum (-5))])])]),
    fun _ => .error ()⟩
  usage := fun _ _ _ => .error ()

theorem C8_counterexample_negative_cost :
    (getTemplateCost c8CounterNets.tpl [] (jnum 9)).1 = some (-5) ∧
      ((-5 : Rat) ≠ 0) ∧
      ((fetchAllData c8CounterNets (fun _ => 0) 0 (jnum 1) 0 []).toOption.bind
          List.head?).map Row.subscriberOneTimeCost = some (some 7) :=
  ⟨by rfl, by norm_num, by rfl⟩

/-- Claim C8 (amended): in an assembled row the template-resolved cost
takes precedence for `subscriberOneTimeCost` when it is strictly
positive; the package-level one-time fee is used if and only if the
resolved template cost is not strictly positive (null, zero, or
negative) and a package-level fee is present; otherwise the field stays
null. -/
theorem stepFee_pos_cost (r' : Row) (c : Rat) (hc : 0 < c) :
    (stepFee { r' with subscriberOneTimeCost := some c }).subscriberOneTimeCost = some c := by
  unfold stepFee
  rw [if_neg]
  rintro ⟨h1 | h1, _⟩
  · exact Option.noConfusion h1
  · have h2 : c = 0 := Option.some.inj h1
    rw [h2] at hc
    exact lt_irrefl 0 hc

/-- Claim C8 (amended): in an assembled row the template-resolved cost
takes precedence for `subscriberOneTimeCost` when it is strictly
positive; the package-level one-time fee is used if and only if the
resolved template cost is not strictly positive (null, zero, or
negative) and a package-level fee is present; otherwise the field stays
null. -/
theorem C8_cost_precedence (nets : Nets) (dateOf : JVal → Int) (today : Int)
    (cache : TplCache) (r : Row) (t : Rat) (p : Pkg)
    (hsid : oTruthy r.sid = true)
    (hpkg : nets.pkg (r.sid.getD jnull) = .ok (some p))
    (htpl : r.prepaidpackagetemplateid = some t)
    (hcost0 : r.subscriberOneTimeCost = none) :
    (enrichRow nets dateOf today cache r).1.subscriberOneTimeCost =
      match (getTemplateCost nets.tpl cache (jnum t)).1 with
      | some c => if 0 < c then some c else if p.fee ≠ none then p.fee else none
      | none => if p.fee ≠ none then p.fee else none := by
  unfold enrichRow
  rw [if_pos hsid]
  dsimp only
  have hclear : ∀ r' : Row, (clearTmp r').subscriberOneTimeCost = r'.subscriberOneTimeCost :=
    fun _ => rfl
  rw [hclear, stepUsage_cost]
  have e1 : (stepPkg nets r).prepaidpackagetemplateid = some t := by
    unfold stepPkg
    rw [hpkg]
    dsimp only
    rw [htpl]
  have e2 : (stepPkg nets r).pkgOneTime = p.fee := by
    unfold stepPkg
    rw [hpkg]
  have e3 : (stepPkg nets r).subscriberOneTimeCost = none := by
    unfold stepPkg
    rw [hpkg]
    exact hcost0
  have hfeecase : (stepFee (stepPkg nets r)).subscriberOneTimeCost =
      if p.fee ≠ none then p.fee else none := by
    unfold stepFee
    by_cases hfee : p.fee = none
    · rw [if_neg (fun hcon => hcon.2 (e2.trans hfee)), e3,
        if_neg (not_not_intro hfee)]
    · rw [if_pos ⟨Or.inl e3, by rw [e2]; exact hfee⟩]
      dsimp only
      rw [e2, if_pos hfee]
  unfold stepCost
  rw [e1]
  dsimp only
  cases hres : (getTemplateCost nets.tpl cache (jnum t)).1 with
  | none => exact hfeecase
  | some c =>
    dsimp only
    by_cases hcpos : 0 < c
    · rw [if_pos hcpos, if_pos hcpos]
      have hsf := stepFee_pos_cost (stepPkg nets r) c hcpos
      rw [e1] at hsf
      exact hsf
    · rw [if_neg hcpos, if_neg hcpos]
      exact hfeecase

/-- Witness for the amended C8: a subscriber whose template resolves to
cost 4 (positive) while the package also carries a fee 7 — the template
cost wins. -/
def c8WitnessNets : Nets where
  subsResp := fun _ => .ok (jobj [])
  pkg := fun _ => .ok (some ⟨none, none, none, none, none, none, some 7⟩)
  tpl := ⟨fun _ =>
    .ok (jobj [("listPrepaidPackageTemplateRsp",
      jobj [("prepaidPackageTemplate", jobj [("cost", jnum 4)])])]),
    fun _ => .error ()⟩
  usage := fun _ _ _ => .error ()

def c8WitnessRow : Row :=
  initRow (jobj [("subscriberId", jnum 1), ("prepaidpackagetemplateid", jnum 9)])

theorem C8_cost_precedence_witness :
    (enrichRow c8WitnessNets (fun _ => 0) 0 [] c8WitnessRow).1.subscriberOneTimeCost =
      match (getTemplateCost c8WitnessNets.tpl [] (jnum 9)).1 with
      | some c => if 0 < c then some c
        else if (some (7 : Rat) : Option Rat) ≠ none then some 7 else none
      | none => if (some (7 : Rat) : Option Rat) ≠ none then some 7 else none :=
  C8_cost_precedence c8WitnessNets (fun _ => 0) 0 [] c8WitnessRow 9
    ⟨none, none, none, none, none, none, some 7⟩ (by rfl) (by rfl) (by rfl) (by rfl)

/-- Counterexample for claim C9 as stated: `fetchAllData` takes no
`options` argument and applies no page-size clamp — an account listing
51 subscribers comes back as 51 rows in one call, exceeding the claimed
default limit of 50; nothing in the result carries a cursor. -/
def c9CounterNets : Nets where
  subsResp := fun _ => .ok (jobj [("subscriberList", jarr (List.replicate 51 (jobj [])))])
  pkg := fun _ => .error ()
  tpl := ⟨fun _ => .error (), fun _ => .error ()⟩
  usage := fun _ _ _ => .error ()

theorem C9_counterexample_no_limit :
    (fetchAllData c9CounterNets (fun _ => 0) 0 (jnum 1) 0 []).toOption.map List.length =
        some 51 ∧
      50 < 51 :=
  ⟨by rfl, by norm_num⟩

/-- Claim C9 (amended): `fetchAllData` takes only an account id (plus
the environment default); it returns the plain rows array — one row per
listed subscriber with no truncation, no limit clamping and no
`nextCursor` — whenever the account id resolves and the subscriber list
fetch succeeds. -/
theorem C9_no_pagination (nets : Nets) (dateOf : JVal → Int) (today : Int)
    (p : JVal) (dflt : Rat) (cache : TplCache) (a : Rat) (resp : JVal) (subs : List JVal)
    (ha : resolveAccountId p dflt = some a) (hs : nets.subsResp a = .ok resp)
    (he : extractSubs resp = .ok subs) :
    (fetchAllData nets dateOf today p dflt cache).toOption.map List.length =
      some subs.length := by
  simp only [fetchAllData, ha, hs, he]
  simp [Except.toOption, enrichAll_length]

/-- Witness for the amended C9 on a concrete three-subscriber account. -/
def c9WitnessNets : Nets where
  subsResp := fun _ => .ok (jobj [("subscriberList", jarr (List.replicate 3 (jobj [])))])
  pkg := fun _ => .error ()
  tpl := ⟨fun _ => .error (), fun _ => .error ()⟩
  usage := fun _ _ _ => .error ()

theorem C9_no_pagination_witness :
    (fetchAllData c9WitnessNets (fun _ => 0) 0 (jnum 1) 0 []).toOption.map List.length =
      some (List.replicate 3 (jobj [])).length :=
  C9_no_pagination c9WitnessNets (fun _ => 0) 0 (jnum 1) 0 [] 1
    (jobj [("subscriberList", jarr (List.replicate 3 (jobj [])))])
    (List.replicate 3 (jobj [])) (by rfl) (by rfl) (by rfl)

end Teltrip
